import Mathlib

/-!
Shallow embedding of `recommendation_engine.py` from the repository
`hfalaky/AI-Assistant-Falaky-EFG`, together with theorems settling the
frozen claims about its specification.

Modelling conventions:
* Python numbers (`float` volumes, `change_pct`, priorities) are modelled as
  exact rationals `ℚ`; integer fields as `ℤ`.
* A pandas DataFrame is a `Market`: per-column presence flags plus a list of
  rows; a cell that is NaN / Python `None` / absent is `Option.none`.
  `change_pct` cells hold the result of `pd.to_numeric(..., errors="coerce")`:
  `none` models an unparseable or missing value.
* Python `dict.get` on the portfolio is an `Option`-valued field access.
* Python truthiness of a string (`a or b or ""`) is `pyOrS` below: only the
  empty string and `None` are falsy.
* Exceptions (pandas `KeyError` from `sort_values` on a missing column, or
  from indexing a frame with a scalar boolean) are modelled with `Except Unit`:
  `.error ()` is an uncaught exception escaping the engine.
* `datetime.utcnow()` becomes an explicit parameter `now : ℚ` (minutes);
  `timedelta(minutes=w)` is the rational `w`; `asof.isoformat()` is modelled
  by the timestamp value itself.
* Python's `round` (banker's rounding to `n` decimal places) and the format
  specifiers `:.0%` / `:.2f` are modelled by exact half-to-even rounding on
  `ℚ`; `pandas.sort_values` (an unstable sort) is modelled by a deterministic
  stable sort, so among rows with equal keys the embedding fixes the
  first-occurrence order that pandas leaves unspecified.
-/

/-- Python string truthiness fallback: `a or d` where `a` is an optional
string (`None` and `""` are falsy). -/
def pyOrS (a : Option String) (d : String) : String :=
  match a with
  | some s => if s = "" then d else s
  | none => d

/-- The fixed synonym table `SECTOR_MAP_11` of `recommendation_engine.py`. -/
def SECTOR_MAP_11 : List (String × String) :=
  [("banking", "Financials"),
   ("financials", "Financials"),
   ("investment", "Financials"),
   ("jordan securities", "Financials"),
   ("pakistani securities", "Financials"),
   ("kenian securities", "Financials"),
   ("basic materials", "Materials"),
   ("materials", "Materials"),
   ("industrial", "Industrials"),
   ("industrials", "Industrials"),
   ("industries", "Industrials"),
   ("services", "Industrials"),
   ("others", "Industrials"),
   ("consumer discretionary", "Consumer Discretionary"),
   ("consumer services", "Consumer Discretionary"),
   ("tourism", "Consumer Discretionary"),
   ("trade", "Consumer Discretionary"),
   ("consumer staples", "Consumer Staples"),
   ("food", "Consumer Staples"),
   ("energy", "Energy"),
   ("health care", "Healthcare"),
   ("healthcare", "Healthcare"),
   ("technology", "Technology"),
   ("information technology", "Technology"),
   ("real estate", "Real Estate"),
   ("realestate", "Real Estate"),
   ("telecommunication services", "Telecommunications"),
   ("telecommunications", "Telecommunications")]

/-- Python `" ".join(s.split())`: collapse runs of whitespace, drop edges. -/
def collapseWs (s : String) : String :=
  String.intercalate (" ") ((s.split (fun c => c.isWhitespace)).filter (fun t => t ≠ ""))

/-- Body of `_std_sector_11` on an actual string label (the non-NaN case):
strip, lower-case, replace `&` by `and`, collapse whitespace, look up. -/
def std_sector_11_str (label : String) : String :=
  let s := label.trim.toLower
  let s := s.replace ("&") ("and")
  let s := collapseWs s
  ((SECTOR_MAP_11.lookup s).getD ("Unknown"))

/-- The function `_std_sector_11`: a `none` argument models a NaN / `None`
label (`pd.isna(label) or label is None`). -/
def std_sector_11 (label : Option String) : String :=
  match label with
  | none => "Unknown"
  | some s => std_sector_11_str s

/-- The function `_is_unknown` applied to a string value. -/
def is_unknown_str (s : String) : Bool :=
  s.trim.toLower ∈ ["", "na", "n/a", "none", "null", "unknown"]

/-- The function `_is_unknown` applied to an optional value (`None` is
unknown). -/
def is_unknown (v : Option String) : Bool :=
  match v with
  | none => true
  | some s => is_unknown_str s

/-- Round a rational to the nearest integer, ties to even (Python's
`round` / format rounding, modelled exactly on `ℚ`). -/
def roundHalfEven (q : ℚ) : ℤ :=
  let f : ℤ := ⌊q⌋
  let r : ℚ := q - (f : ℚ)
  if r > 1/2 then f + 1
  else if r < 1/2 then f
  else if f % 2 = 0 then f else f + 1

/-- Python `round(q, 4)`. -/
def pyRound4 (q : ℚ) : ℚ := (roundHalfEven (q * 10000) : ℚ) / 10000

/-- Python `round(q, 2)`. -/
def pyRound2 (q : ℚ) : ℚ := (roundHalfEven (q * 100) : ℚ) / 100

/-- Render a natural number of hundredths as a two-decimal string,
e.g. `500 ↦ "5.00"`. -/
def centsToString (n : ℕ) : String :=
  let ip := n / 100
  let fp := n % 100
  toString ip ++ "." ++ (if fp < 10 then ("0") ++ toString fp else toString fp)

/-- The format `f"{round(x*100, 2):.2f}%"` used by `_safe_percent` on a
present value. -/
def formatPct2 (x : ℚ) : String :=
  let k : ℤ := roundHalfEven (x * 10000)
  (if k < 0 then ("-") ++ centsToString k.natAbs else centsToString k.toNat) ++ "%"

/-- The function `_safe_percent` (default `dp = 2`); a `none` argument models
`None`/NaN. -/
def safe_percent (x : Option ℚ) : String :=
  match x with
  | none => "N/A"
  | some v => formatPct2 v

/-- The format `f"{share:.0%}"` used by `_check_sector_concentration`. -/
def formatPct0 (x : ℚ) : String :=
  toString (roundHalfEven (x * 100)) ++ "%"

/-- One client portfolio snapshot: the keys of the Python `dict` that the
engine reads, each `Option`-valued because `dict.get` may return `None`.
Numeric fields are typed with the numeric value the engine coerces them to. -/
structure Portfolio where
  clientid : Option String := none
  mosttradedsector : Option String := none
  mostprofitablesector : Option String := none
  mosttradedsector_std : Option String := none
  mostprofitablesector_std : Option String := none
  tradesvolumeofmosttradedsector : Option ℚ := none
  totaltradesvolumein24 : Option ℚ := none
  numberoftradesinmosttradedsector : Option ℤ := none
  mosttradedsecurity : Option String := none
  mostprofitablesecurityname : Option String := none
  interval_start : Option ℤ := none
  interval_end : Option ℤ := none
  daysasclient : Option ℤ := none
  totaltradesin24 : Option ℤ := none
  durationheld : Option ℤ := none
deriving DecidableEq

/-- One market row (pandas DataFrame row). `change_pct` holds the
`pd.to_numeric(..., errors="coerce")` result (`none` = NaN/unparseable);
`name` and `sector` cells are `none` when missing. -/
structure MarketRow where
  name : Option String := none
  change_pct : Option ℚ := none
  sector : Option String := none
deriving DecidableEq

/-- The market DataFrame: which columns exist, plus the rows.  An empty
`rows` list models `market.empty`. -/
structure Market where
  hasName : Bool := true
  hasChangePct : Bool := true
  hasSector : Bool := true
  rows : List MarketRow := []
deriving DecidableEq

/-- After `_ensure_market_sector_std`, the frame has a `sector_std` column
exactly when it was nonempty and had a `sector` column (the function
returns the frame unchanged when `market.empty`). -/
def ensuredHasSectorStd (m : Market) : Bool :=
  !m.rows.isEmpty && m.hasSector

/-- The derived `sector_std` cell of a row: `df["sector"].apply(_std_sector_11)`. -/
def rowSectorStd (r : MarketRow) : String := std_sector_11 r.sector

/-- The `evidence` dict of a recommendation: union of the keys the
generators write, each optional (`none` = key absent; for `stock` a key
written with a `None` value is also `none`, which is dedup-equivalent). -/
structure Evidence where
  alt_stock : Option String := none
  stock : Option String := none
  sector_std : Option String := none
  alt_sector_std : Option String := none
  user_sector_mentioned : Option String := none
  user_sector_std : Option String := none
  sector_mentioned : Option String := none
  sector_share : Option ℚ := none
  change_pct : Option ℚ := none
  issues : Option (List String) := none
deriving DecidableEq

/-- One recommendation item as built by the generators. -/
structure Recommendation where
  type : String
  priority : ℚ
  message : String
  evidence : Evidence
  stale : Bool
deriving DecidableEq

/-- The output envelope of `generate_recommendations`.  `meta_data_timestamp`
models `asof.isoformat()` by the timestamp value. -/
structure EngineOutput where
  client_id : Option String
  risk_persona : String
  persona_confidence : ℚ
  meta_freshness_policy : String
  meta_stale_after_minutes : ℤ
  meta_data_timestamp : ℚ
  meta_max_items : Option ℤ
  recommendations : List Recommendation
deriving DecidableEq

/-- The helper `_get_user_sector_labels`: `(mentioned, normalized)`.
`x or y or z` chains use Python string truthiness (`pyOrS`). -/
def get_user_sector_labels (p : Portfolio) : String × String :=
  let mentioned := pyOrS p.mosttradedsector (pyOrS p.mostprofitablesector (""))
  let std := pyOrS p.mosttradedsector_std
    (pyOrS p.mostprofitablesector_std (std_sector_11_str mentioned))
  (mentioned, std)

/-- Python's binary `max` (returns the first argument on ties, which on
numbers is the same value). -/
def pyMax (a b : ℚ) : ℚ := if b ≤ a then a else b

/-- The persona heuristic `_infer_risk_persona`.  `int(p.get(k) or 0)` is
`Option.getD 0`; `tenure_days / 30.0` and `trades_24 / months` are exact
rational divisions. -/
def infer_risk_persona (p : Portfolio) : String × ℚ :=
  let tenure_days : ℤ := p.daysasclient.getD 0
  let trades_24 : ℤ := p.totaltradesin24.getD 0
  let avg_hold : ℤ := p.durationheld.getD 0
  let months : ℚ := pyMax 1 ((tenure_days : ℚ) / 30)
  let tpm : ℚ := (trades_24 : ℚ) / months
  let score : ℤ := 0
  let score := score + (if tpm ≥ 4 then 2 else if tpm ≥ 2 then 1 else 0)
  let score := score + (if avg_hold ≤ 45 then 2 else if avg_hold ≤ 90 then 1 else 0)
  let score := score - (if tenure_days ≥ 1000 then 2 else if tenure_days ≥ 365 then 1 else 0)
  if score ≥ 2 then ("Aggressive", 3/4)
  else if score ≤ -1 then ("Conservative", 7/10)
  else ("Balanced", 13/20)

/-- The list `issues` accumulated by `_data_quality_checks`.  The
`pd.to_datetime(..., errors="coerce")` results for `interval_start` /
`interval_end` are the `Option ℤ` fields (`none` = NaT, `pd.notna` fails). -/
def dq_issues (p : Portfolio) : List String :=
  let interval : List String :=
    match p.interval_start, p.interval_end with
    | some s, some e => if s > e then ["interval_start occurs after interval_end"] else []
    | _, _ => []
  let sector_vol : ℚ := p.tradesvolumeofmosttradedsector.getD 0
  let sector_trades : ℤ := p.numberoftradesinmosttradedsector.getD 0
  let sectorIssue : List String :=
    if is_unknown p.mosttradedsector && (sector_vol > 0 || sector_trades > 0) then
      ["mosttradedsector is 'Unknown' while sector volume/trades exist"]
    else []
  interval ++ sectorIssue

/-- The function `_data_quality_checks`: emits the single item unless the
issue list is empty or is exactly the lone interval-order issue. -/
def data_quality_checks (p : Portfolio) : List Recommendation :=
  let issues := dq_issues p
  if issues ≠ [] then
    if ¬ (issues.length = 1 ∧ ((issues.headD ("")).startsWith ("interval_start")) = true) then
      [{ type := "data_quality"
         priority := 3/10
         message := "Some portfolio fields look inconsistent; verify sector/date mapping before acting."
         evidence := { issues := some issues }
         stale := false }]
    else []
  else []

/-- The generator `_check_sector_concentration` (the entry point calls it
with the default `threshold = 0.60`, passed explicitly here). -/
def check_sector_concentration (p : Portfolio) (threshold : ℚ) : Option Recommendation :=
  match p.mosttradedsector with
  | none => none
  | some mentioned =>
    if is_unknown_str mentioned then none
    else
      let sector_vol : ℚ := p.tradesvolumeofmosttradedsector.getD 0
      let total_vol : ℚ := p.totaltradesvolumein24.getD 0
      if total_vol ≤ 0 then none
      else
        let share := sector_vol / total_vol
        if share ≥ threshold then
          some { type := "sector_concentration"
                 priority := 9/10
                 message := mentioned ++ " accounts for " ++ formatPct0 share ++
                   " of your 2024 trading volume — consider diversifying."
                 evidence := { sector_mentioned := some mentioned
                               sector_share := some (pyRound4 share) }
                 stale := false }
        else none

/-- Stable insertion step: place `x` before the first `y` with `le x y`. -/
def insertBy (le : α → α → Bool) (x : α) : List α → List α
  | [] => [x]
  | y :: ys => if le x y then x :: y :: ys else y :: insertBy le x ys

/-- Stable insertion sort; with `le x y = (key y ≤ key x)` this models a
descending sort that keeps the original order of equal keys (Python's
`sorted(..., reverse=True)`; for `pandas.sort_values` the tie order is the
embedding's deterministic choice). -/
def sortBy (le : α → α → Bool) (l : List α) : List α := l.foldr (insertBy le) []

/-- Comparator for `sort_values("change_pct", ascending=False)`. -/
def leChangeDesc (r s : MarketRow) : Bool := s.change_pct.getD 0 ≤ r.change_pct.getD 0

/-- Comparator for `sort_values("change_pct", ascending=True)`. -/
def leChangeAsc (r s : MarketRow) : Bool := r.change_pct.getD 0 ≤ s.change_pct.getD 0

/-- Python `f"{x}"` on an optional string cell (`None` prints as `"None"`). -/
def dispName (o : Option String) : String := o.getD ("None")

/-- The generator `_suggest_diversification`.  The `.error ()` branch is the
pandas `KeyError` raised by `candidates.sort_values("change_pct", ...)` when
the market has no `change_pct` column but candidates remain. -/
def suggest_diversification (p : Portfolio) (m : Market) :
    Except Unit (Option Recommendation) :=
  if m.rows.isEmpty || !m.hasName then .ok none
  else
    let labels := get_user_sector_labels p
    let mentioned := labels.1
    let normalized := labels.2
    let candidates :=
      if m.hasChangePct then m.rows.filter (fun r => r.change_pct.getD 0 > 0) else m.rows
    if candidates.isEmpty then .ok none
    else
      let candidates :=
        if ensuredHasSectorStd m && !(is_unknown_str normalized) then
          candidates.filter (fun r => rowSectorStd r ≠ normalized)
        else candidates
      if candidates.isEmpty then .ok none
      else if !m.hasChangePct then .error ()
      else
        match sortBy leChangeDesc candidates with
        | [] => .ok none
        | alt :: _ =>
          match alt.name with
          | none => .ok none
          | some alt_name =>
            if is_unknown_str alt_name then .ok none
            else
              let pfx := if !(is_unknown_str mentioned) then (" outside ") ++ mentioned else ("")
              .ok (some
                { type := "diversification"
                  priority := 3/4
                  message := "Consider diversifying" ++ pfx ++ ". Example: " ++ alt_name ++
                    " (+" ++ safe_percent alt.change_pct ++ " today)."
                  evidence :=
                    { alt_stock := some alt_name
                      alt_sector_std :=
                        some (if ensuredHasSectorStd m then rowSectorStd alt else ("Unknown"))
                      user_sector_mentioned := some mentioned
                      user_sector_std := some normalized
                      change_pct := some (alt.change_pct.getD 0) }
                  stale := false })

/-- The generator `_suggest_within_profitable_sector`.  The first
`.error ()` is the `KeyError` from `m[(m.get("sector_std") == prof_std)]`
when no `sector_std` column exists (a scalar `False` indexer); the second is
`r["name"]` on a frame without a `name` column. -/
def suggest_within_profitable_sector (p : Portfolio) (m : Market) :
    Except Unit (Option Recommendation) :=
  match p.mostprofitablesector_std with
  | none => .ok none
  | some prof_std =>
    if is_unknown_str prof_std then .ok none
    else if !(ensuredHasSectorStd m) then .error ()
    else
      let df := m.rows.filter (fun r => rowSectorStd r == prof_std)
      if !m.hasChangePct || df.isEmpty then .ok none
      else
        let df := df.filter (fun r => r.change_pct.isSome)
        match sortBy leChangeDesc df with
        | [] => .ok none
        | r :: _ =>
          if !m.hasName then .error ()
          else
            .ok (some
              { type := "within_profitable_sector"
                priority := 7/10
                message := "In your profitable sector (" ++ prof_std ++ "), " ++
                  dispName r.name ++ " is up " ++ safe_percent r.change_pct ++ " today."
                evidence :=
                  { stock := r.name
                    sector_std := some prof_std
                    change_pct := some (r.change_pct.getD 0) }
                stale := false })

/-- The generator `_suggest_within_primary_sector`. -/
def suggest_within_primary_sector (p : Portfolio) (m : Market) : Option Recommendation :=
  let primary_std := pyOrS p.mosttradedsector_std (pyOrS p.mostprofitablesector_std ("Unknown"))
  if is_unknown_str primary_std then none
  else if m.rows.isEmpty || !(ensuredHasSectorStd m) then none
  else
    let df := m.rows.filter (fun r => rowSectorStd r == primary_std)
    if df.isEmpty || !m.hasChangePct || !m.hasName then none
    else
      let df := df.filter (fun r => r.change_pct.isSome && r.name.isSome)
      let df := df.filter (fun r => r.change_pct.getD 0 > 0)
      match sortBy leChangeDesc df with
      | [] => none
      | r :: _ =>
        some
          { type := "within_primary_sector"
            priority := 7/10
            message := "Within your main sector (" ++ primary_std ++ "), " ++
              dispName r.name ++ " is up " ++ safe_percent r.change_pct ++ " today."
            evidence :=
              { stock := r.name
                sector_std := some primary_std
                change_pct := some (r.change_pct.getD 0) }
            stale := false }

/-- The normalized exclusion set built by `_highlight_movers_split`. -/
def moversExcludeSet (exclude_names : List (Option String)) : List String :=
  exclude_names.filterMap (fun o =>
    match o with
    | some s => if is_unknown_str s then none else some (s.trim.toLower)
    | none => none)

/-- The generator `_highlight_movers_split` (the entry point passes
`exclude_names` and leaves the thresholds and limits at their defaults,
supplied explicitly here). -/
def highlight_movers_split (m : Market) (up_thr down_thr : ℚ)
    (exclude_names : List (Option String)) (up_limit down_limit : Option ℤ) :
    List Recommendation :=
  if m.rows.isEmpty || !m.hasChangePct || !m.hasName then []
  else
    let df := m.rows.filter (fun r => r.change_pct.isSome && r.name.isSome)
    let df :=
      if exclude_names ≠ [] then
        df.filter (fun r => !((moversExcludeSet exclude_names).contains
          ((dispName r.name).trim.toLower)))
      else df
    let ups := sortBy leChangeDesc (df.filter (fun r => r.change_pct.getD 0 ≥ up_thr))
    let ups := match up_limit with
      | some k => ups.take k.toNat
      | none => ups
    let upRecs := ups.map (fun r =>
      { type := "top_mover_up"
        priority := 13/20
        message := dispName r.name ++ " up " ++ safe_percent r.change_pct ++ " today."
        evidence := { stock := r.name, change_pct := some (r.change_pct.getD 0) }
        stale := false })
    let downs := sortBy leChangeAsc (df.filter (fun r => r.change_pct.getD 0 ≤ -down_thr))
    let downs := match down_limit with
      | some k => downs.take k.toNat
      | none => downs
    let downRecs := downs.map (fun r =>
      { type := "watchlist_drop"
        priority := 1/2
        message := dispName r.name ++ " down " ++ safe_percent r.change_pct ++
          " today — monitor risk."
        evidence := { stock := r.name, change_pct := some (r.change_pct.getD 0) }
        stale := false })
    upRecs ++ downRecs

/-- The per-item freshness mutation of `generate_recommendations`
(`degrade` / `warn` / anything else, applied only when stale). -/
def freshnessTransform (policy : String) (r : Recommendation) : Recommendation :=
  if policy = "degrade" then { r with priority := r.priority * (7/10), stale := true }
  else if policy = "warn" then { r with stale := true }
  else r

/-- Turn an optional single recommendation into list items (`if r: recs.append(r)`). -/
def optToList : Option Recommendation → List Recommendation
  | some r => [r]
  | none => []

/-- Lines 451–476 of `generate_recommendations`: the concatenated generator
outputs in invocation order, before the freshness policy is applied.
Exceptions escaping a generator abort the whole computation. -/
def rawRecs (p : Portfolio) (m : Market) : Except Unit (List Recommendation) := do
  let recs := data_quality_checks p
  let recs := recs ++ optToList (check_sector_concentration p (3/5))
  let r2 ← suggest_diversification p m
  let recs := recs ++ optToList r2
  let r3 ← suggest_within_profitable_sector p m
  let recs := recs ++ optToList r3
  let recs := recs ++ optToList (suggest_within_primary_sector p m)
  let exclude := [p.mosttradedsecurity, p.mostprofitablesecurityname]
  return recs ++ highlight_movers_split m (1/50) (3/100) exclude (some 5) (some 5)

/-- Comparator of `sorted(recs, key=lambda x: x.get("priority", 0), reverse=True)`. -/
def leRec (a b : Recommendation) : Bool := b.priority ≤ a.priority

/-- The priority-descending stable sort of the working list. -/
def sortRecs (l : List Recommendation) : List Recommendation := sortBy leRec l

/-- The dedup key: `str(evidence.get("alt_stock") or evidence.get("stock") or "").strip().lower()`. -/
def recKey (r : Recommendation) : String :=
  (pyOrS r.evidence.alt_stock (pyOrS r.evidence.stock (""))).trim.toLower

/-- The dedup walk of `generate_recommendations` with its `seen` set. -/
def dedupGo (seen : List String) : List Recommendation → List Recommendation
  | [] => []
  | r :: rs =>
    let k := recKey r
    if k ≠ "" ∧ k ∈ seen then dedupGo seen rs
    else r :: dedupGo (if k ≠ "" then k :: seen else seen) rs

/-- De-duplicate by stock name across all recs (`seen` starts empty). -/
def dedupRecs (l : List Recommendation) : List Recommendation := dedupGo [] l

/-- Optional top-K: `if isinstance(max_items, int) and max_items > 0`. -/
def truncateItems (maxItems : Option ℤ) (l : List Recommendation) : List Recommendation :=
  match maxItems with
  | some k => if k > 0 then l.take k.toNat else l
  | none => l

/-- The staleness test `(now - asof) > timedelta(minutes=stale_after_minutes)`. -/
def isStaleB (stale_after_minutes : ℤ) (asof now : ℚ) : Bool :=
  now - asof > (stale_after_minutes : ℚ)

/-- The priority-sorted working list right before deduplication: generator
outputs with the freshness policy applied when stale, sorted by priority
descending (lines 451–489 of the source). -/
def workingList (p : Portfolio) (m : Market) (policy : String) (is_stale : Bool) :
    Except Unit (List Recommendation) := do
  let raw ← rawRecs p m
  return sortRecs (if is_stale then raw.map (freshnessTransform policy) else raw)

/-- The entry point `generate_recommendations`.  The wall clock
`datetime.utcnow()` is the explicit parameter `now` (minutes as `ℚ`);
`market_asof or now` is `Option.getD`. -/
def generate_recommendations (p : Portfolio) (m : Market) (maxItems : Option ℤ)
    (freshness_policy : String) (stale_after_minutes : ℤ) (market_asof : Option ℚ)
    (now : ℚ) : Except Unit EngineOutput := do
  let persona := infer_risk_persona p
  let asof := market_asof.getD now
  let is_stale : Bool := isStaleB stale_after_minutes asof now
  let recs ← workingList p m freshness_policy is_stale
  let recs := dedupRecs recs
  let recs := truncateItems maxItems recs
  return { client_id := p.clientid
           risk_persona := persona.1
           persona_confidence := pyRound2 persona.2
           meta_freshness_policy := freshness_policy
           meta_stale_after_minutes := stale_after_minutes
           meta_data_timestamp := asof
           meta_max_items := maxItems
           recommendations := recs }

theorem mem_insertBy {α : Type} (le : α → α → Bool) (x a : α) :
    ∀ l : List α, a ∈ insertBy le x l ↔ a = x ∨ a ∈ l := by
  intro l
  induction l with
  | nil => simp [insertBy]
  | cons y ys ih =>
    simp only [insertBy]
    split
    · simp [List.mem_cons]
    · simp only [List.mem_cons, ih]
      tauto

theorem mem_sortBy {α : Type} (le : α → α → Bool) (a : α) :
    ∀ l : List α, a ∈ sortBy le l ↔ a ∈ l := by
  intro l
  induction l with
  | nil => simp [sortBy]
  | cons y ys ih =>
    show a ∈ insertBy le y (sortBy le ys) ↔ _
    rw [mem_insertBy, ih]
    simp [List.mem_cons]

theorem pairwise_insertBy {α : Type} (le : α → α → Bool)
    (htot : ∀ a b, le a b = true ∨ le b a = true)
    (htrans : ∀ a b c, le a b = true → le b c = true → le a c = true)
    (x : α) : ∀ l : List α, l.Pairwise (fun a b => le a b = true) →
    (insertBy le x l).Pairwise (fun a b => le a b = true) := by
  intro l
  induction l with
  | nil =>
    intro _
    simp [insertBy]
  | cons y ys ih =>
    intro hp
    rw [List.pairwise_cons] at hp
    obtain ⟨hy, hys⟩ := hp
    simp only [insertBy]
    split
    · rename_i hxy
      rw [List.pairwise_cons]
      refine ⟨?_, ?_⟩
      · intro b hb
        rcases List.mem_cons.mp hb with rfl | hb
        · exact hxy
        · exact htrans x y b hxy (hy b hb)
      · rw [List.pairwise_cons]
        exact ⟨hy, hys⟩
    · rename_i hxy
      have hyx : le y x = true := by
        rcases htot x y with h | h
        · exact absurd h hxy
        · exact h
      rw [List.pairwise_cons]
      refine ⟨?_, ih hys⟩
      intro b hb
      rcases (mem_insertBy le x b ys).mp hb with rfl | hb
      · exact hyx
      · exact hy b hb

theorem pairwise_sortBy {α : Type} (le : α → α → Bool)
    (htot : ∀ a b, le a b = true ∨ le b a = true)
    (htrans : ∀ a b c, le a b = true → le b c = true → le a c = true) :
    ∀ l : List α, (sortBy le l).Pairwise (fun a b => le a b = true) := by
  intro l
  induction l with
  | nil => simp [sortBy]
  | cons y ys ih => exact pairwise_insertBy le htot htrans y _ ih

theorem leRec_total (a b : Recommendation) : leRec a b = true ∨ leRec b a = true := by
  simp only [leRec, decide_eq_true_eq]
  exact le_total _ _

theorem leRec_trans (a b c : Recommendation) :
    leRec a b = true → leRec b c = true → leRec a c = true := by
  simp only [leRec, decide_eq_true_eq]
  intro h1 h2
  exact le_trans h2 h1

theorem sortRecs_mem (a : Recommendation) (l : List Recommendation) :
    a ∈ sortRecs l ↔ a ∈ l := mem_sortBy leRec a l

theorem sortRecs_sorted (l : List Recommendation) :
    (sortRecs l).Pairwise (fun a b => b.priority ≤ a.priority) := by
  have h := pairwise_sortBy leRec leRec_total leRec_trans l
  exact h.imp (by
    intro a b hab
    simpa [leRec, decide_eq_true_eq] using hab)

theorem leChangeDesc_total (a b : MarketRow) :
    leChangeDesc a b = true ∨ leChangeDesc b a = true := by
  simp only [leChangeDesc, decide_eq_true_eq]
  exact le_total _ _

theorem leChangeDesc_trans (a b c : MarketRow) :
    leChangeDesc a b = true → leChangeDesc b c = true → leChangeDesc a c = true := by
  simp only [leChangeDesc, decide_eq_true_eq]
  intro h1 h2
  exact le_trans h2 h1

theorem dedupGo_subset :
    ∀ (l : List Recommendation) (seen : List String) (a : Recommendation),
    a ∈ dedupGo seen l → a ∈ l := by
  intro l
  induction l with
  | nil =>
    intro seen a h
    simp [dedupGo] at h
  | cons r rs ih =>
    intro seen a h
    simp only [dedupGo] at h
    split at h
    · exact List.mem_cons_of_mem _ (ih seen a h)
    · rcases List.mem_cons.mp h with rfl | h2
      · exact List.mem_cons_self _ _
      · exact List.mem_cons_of_mem _ (ih _ a h2)

theorem dedupGo_key_notin :
    ∀ (l : List Recommendation) (seen : List String) (a : Recommendation),
    a ∈ dedupGo seen l → recKey a ≠ "" → recKey a ∉ seen := by
  intro l
  induction l with
  | nil =>
    intro seen a h
    simp [dedupGo] at h
  | cons r rs ih =>
    intro seen a h hne
    simp only [dedupGo] at h
    split at h
    · exact ih seen a h hne
    · rename_i hcond
      rcases List.mem_cons.mp h with rfl | h2
      · intro hmem
        exact hcond ⟨hne, hmem⟩
      · have h3 := ih _ a h2 hne
        intro hmem
        apply h3
        by_cases hk : recKey r ≠ ""
        · rw [if_pos hk]
          exact List.mem_cons_of_mem _ hmem
        · rw [if_neg hk]
          exact hmem

theorem dedupGo_pairwise :
    ∀ (l : List Recommendation) (seen : List String),
    (dedupGo seen l).Pairwise (fun a b => recKey a ≠ "" → recKey a ≠ recKey b) := by
  intro l
  induction l with
  | nil =>
    intro seen
    simp [dedupGo]
  | cons r rs ih =>
    intro seen
    simp only [dedupGo]
    split
    · exact ih seen
    · rw [List.pairwise_cons]
      refine ⟨?_, ih _⟩
      intro b hb hrne
      by_cases hkb : recKey b = ""
      · rw [hkb]
        exact hrne
      · have hnotin := dedupGo_key_notin rs _ b hb hkb
        rw [if_pos hrne] at hnotin
        intro hEq
        apply hnotin
        rw [← hEq]
        exact List.mem_cons_self _ _

theorem dedupGo_filter_empty :
    ∀ (l : List Recommendation) (seen : List String),
    (dedupGo seen l).filter (fun r => recKey r == "") =
      l.filter (fun r => recKey r == "") := by
  intro l
  induction l with
  | nil =>
    intro seen
    rfl
  | cons r rs ih =>
    intro seen
    simp only [dedupGo]
    split
    · rename_i hcond
      have hne : (recKey r == "") = false := by
        simp [hcond.1]
      rw [List.filter_cons]
      simp [hne, ih]
    · rw [List.filter_cons, List.filter_cons]
      cases h : (recKey r == "") with
      | true => simp [ih]
      | false => simp [ih]

theorem dedupGo_find_mem :
    ∀ (l : List Recommendation) (seen : List String) (k : String) (y : Recommendation),
    k ≠ "" → k ∉ seen → l.find? (fun r => recKey r == k) = some y →
    y ∈ dedupGo seen l := by
  intro l
  induction l with
  | nil =>
    intro seen k y _ _ h
    simp [List.find?] at h
  | cons r rs ih =>
    intro seen k y hk hns hf
    cases hr : (recKey r == k) with
    | true =>
      simp only [List.find?, hr] at hf
      have hyr : y = r := (Option.some.inj hf).symm
      subst hyr
      simp only [dedupGo]
      have hky : recKey y = k := by
        simpa using hr
      rw [if_neg ?_]
      · exact List.mem_cons_self _ _
      · intro hcond
        exact hns (hky ▸ hcond.2)
    | false =>
      simp only [List.find?, hr] at hf
      have hkr : recKey r ≠ k := by
        simpa using hr
      simp only [dedupGo]
      split
      · exact ih seen k y hk hns hf
      · apply List.mem_cons_of_mem
        apply ih _ k y hk ?_ hf
        by_cases hkr2 : recKey r ≠ ""
        · rw [if_pos hkr2]
          intro hmem
          rcases List.mem_cons.mp hmem with hEq | hmem2
          · exact hkr hEq.symm
          · exact hns hmem2
        · rw [if_neg hkr2]
          exact hns

theorem mem_truncateItems (mi : Option ℤ) (l : List Recommendation) (a : Recommendation) :
    a ∈ truncateItems mi l → a ∈ l := by
  cases mi with
  | none => exact id
  | some k =>
    simp only [truncateItems]
    split
    · exact fun h => List.take_subset _ _ h
    · exact id

theorem truncateItems_sublist (mi : Option ℤ) (l : List Recommendation) :
    (truncateItems mi l).Sublist l := by
  cases mi with
  | none => exact List.Sublist.refl l
  | some k =>
    simp only [truncateItems]
    split
    · exact List.take_sublist _ _
    · exact List.Sublist.refl l

theorem workingList_ok_iff {p : Portfolio} {m : Market} {pol : String} {st : Bool}
    {w : List Recommendation} :
    workingList p m pol st = .ok w ↔
    ∃ raw, rawRecs p m = .ok raw ∧
      w = sortRecs (if st then raw.map (freshnessTransform pol) else raw) := by
  cases hr : rawRecs p m with
  | error e =>
    simp only [workingList, hr]
    constructor
    · intro h
      simp [Bind.bind, Except.bind] at h
    · rintro ⟨raw, hraw, _⟩
      cases hraw
  | ok raw =>
    simp only [workingList, hr]
    constructor
    · intro h
      refine ⟨raw, rfl, ?_⟩
      simp only [Bind.bind, Except.bind, Pure.pure, Except.pure] at h
      exact (Except.ok.inj h).symm
    · rintro ⟨raw2, hraw2, hw⟩
      have : raw2 = raw := (Except.ok.inj hraw2).symm
      subst this
      subst hw
      rfl

theorem generate_ok_iff {p : Portfolio} {m : Market} {mi : Option ℤ} {pol : String}
    {sam : ℤ} {asof : Option ℚ} {now : ℚ} {out : EngineOutput} :
    generate_recommendations p m mi pol sam asof now = .ok out ↔
    ∃ w, workingList p m pol (isStaleB sam (asof.getD now) now) = .ok w ∧
      out = { client_id := p.clientid
              risk_persona := (infer_risk_persona p).1
              persona_confidence := pyRound2 (infer_risk_persona p).2
              meta_freshness_policy := pol
              meta_stale_after_minutes := sam
              meta_data_timestamp := asof.getD now
              meta_max_items := mi
              recommendations := truncateItems mi (dedupRecs w) } := by
  cases hw : workingList p m pol (isStaleB sam (asof.getD now) now) with
  | error e =>
    simp only [generate_recommendations, hw]
    constructor
    · intro h
      simp [Bind.bind, Except.bind] at h
    · rintro ⟨w, hw2, _⟩
      cases hw2
  | ok w =>
    simp only [generate_recommendations, hw]
    constructor
    · intro h
      refine ⟨w, rfl, ?_⟩
      simp only [Bind.bind, Except.bind, Pure.pure, Except.pure] at h
      exact (Except.ok.inj h).symm
    · rintro ⟨w2, hw2, hout⟩
      have : w2 = w := (Except.ok.inj hw2).symm
      subst this
      subst hout
      rfl

/-- Scenario-1 portfolio: `mosttradedsector="Banking"`, sector volume 700 of
1000 total. -/
def pBanking : Portfolio :=
  { mosttradedsector := some ("Banking")
    tradesvolumeofmosttradedsector := some 700
    totaltradesvolumein24 := some 1000 }

/-- An empty market table (all standard columns present, no rows). -/
def mEmptyMkt : Market := { rows := [] }

/-- The sector-concentration item produced for `pBanking` (share 0.70). -/
def concRec : Recommendation :=
  { type := "sector_concentration"
    priority := 9/10
    message := "Banking accounts for 70% of your 2024 trading volume — consider diversifying."
    evidence := { sector_mentioned := some ("Banking"), sector_share := some (7/10) }
    stale := false }

/-- Scenario-2 portfolio for the persona heuristic. -/
def pTenure : Portfolio :=
  { daysasclient := some 1200, totaltradesin24 := some 2, durationheld := some 200 }

/-- C3: persona inference is exactly the documented scoring heuristic over
`daysasclient`, `totaltradesin24` and `durationheld` (defaults 0), with
`months = max(1, tenure/30)`, `tpm = trades/months`, the three additive
scores, and the ≥2 / ≤-1 thresholds mapping to Aggressive 0.75 /
Conservative 0.70 / Balanced 0.65; in particular `daysasclient=1200`,
`totaltradesin24=2`, `durationheld=200` yields Conservative, 0.70. -/
theorem pyMax_eq_max (a b : ℚ) : pyMax a b = max a b := by
  rw [pyMax, max_def]
  rcases le_total a b with h | h
  · rw [if_pos h]
    by_cases hba : b ≤ a
    · rw [if_pos hba]
      exact le_antisymm h hba
    · rw [if_neg hba]
  · rw [if_pos h]
    by_cases hab : a ≤ b
    · rw [if_pos hab]
      exact le_antisymm hab h
    · rw [if_neg hab]

theorem C3_persona_exact_heuristic :
    (∀ p : Portfolio,
      infer_risk_persona p =
        (let tenure_days : ℤ := p.daysasclient.getD 0
         let trades_24 : ℤ := p.totaltradesin24.getD 0
         let avg_hold : ℤ := p.durationheld.getD 0
         let months : ℚ := max 1 ((tenure_days : ℚ) / 30)
         let tpm : ℚ := (trades_24 : ℚ) / months
         let score : ℤ :=
           (if tpm ≥ 4 then 2 else if tpm ≥ 2 then 1 else 0) +
           (if avg_hold ≤ 45 then 2 else if avg_hold ≤ 90 then 1 else 0) -
           (if tenure_days ≥ 1000 then 2 else if tenure_days ≥ 365 then 1 else 0)
         if score ≥ 2 then ("Aggressive", (3 : ℚ)/4)
         else if score ≤ -1 then ("Conservative", (7 : ℚ)/10)
         else ("Balanced", (13 : ℚ)/20))) ∧
    infer_risk_persona pTenure = ("Conservative", 7/10) := by
  constructor
  · intro p
    simp only [infer_risk_persona, zero_add, pyMax_eq_max]
  · with_unfolding_all decide

theorem dq_issues_shape (p : Portfolio) :
    dq_issues p = [] ∨
    dq_issues p = ["interval_start occurs after interval_end"] ∨
    dq_issues p = ["mosttradedsector is 'Unknown' while sector volume/trades exist"] ∨
    dq_issues p = ["interval_start occurs after interval_end",
                   "mosttradedsector is 'Unknown' while sector volume/trades exist"] := by
  simp only [dq_issues]
  rcases p.interval_start with _ | s0 <;> rcases p.interval_end with _ | e0 <;>
    dsimp only <;> (repeat' split) <;> simp

set_option maxRecDepth 8000 in
/-- C6: the data-quality checker emits at most one item, and exactly one iff
some detected issue other than the interval-order issue exists (the lone
interval issue is suppressed); the emitted item has type `data_quality`,
priority 0.30, `stale=false`, and carries the full ordered issue list. -/
theorem C6_data_quality_checker :
    ∀ p : Portfolio,
      (data_quality_checks p).length ≤ 1 ∧
      (data_quality_checks p ≠ [] ↔
        ∃ s ∈ dq_issues p, (s.startsWith ("interval_start")) = false) ∧
      (∀ r ∈ data_quality_checks p,
        r.type = "data_quality" ∧ r.priority = 3/10 ∧ r.stale = false ∧
        r.evidence.issues = some (dq_issues p)) := by
  intro p
  rcases dq_issues_shape p with h | h | h | h <;>
  refine ⟨?_, ?_, ?_⟩ <;>
  simp only [data_quality_checks, h] <;>
  with_unfolding_all decide

/-- Portfolio with an unknown most-traded sector but positive sector volume:
fires the referential-inconsistency data-quality issue. -/
def pDQ : Portfolio := { tradesvolumeofmosttradedsector := some 5 }

set_option maxRecDepth 8000 in
theorem C6_data_quality_checker_witness :
    (data_quality_checks pDQ).length ≤ 1 ∧ data_quality_checks pDQ ≠ [] := by
  refine ⟨(C6_data_quality_checker pDQ).1, ?_⟩
  exact (C6_data_quality_checker pDQ).2.1.mpr
    ⟨"mosttradedsector is 'Unknown' while sector volume/trades exist",
     by with_unfolding_all decide, by with_unfolding_all decide⟩

set_option maxRecDepth 8000 in
/-- C7: sector concentration returns null when the most-traded sector is
unknown/blank or total volume ≤ 0; otherwise it emits a priority-0.90 item
iff `share = sector_vol / total_vol ≥ 0.60`, whose message cites the
percentage and the verbatim sector label and whose evidence carries the
mentioned label and the numeric share; Scenario 1 (Banking, 700/1000) fires
with share 0.70 and a message referencing "Banking". -/
theorem C7_sector_concentration :
    (∀ p : Portfolio,
      (is_unknown p.mosttradedsector = true ∨ p.totaltradesvolumein24.getD 0 ≤ 0 →
        check_sector_concentration p (3/5) = none) ∧
      (∀ s, p.mosttradedsector = some s → is_unknown_str s = false →
        0 < p.totaltradesvolumein24.getD 0 →
        (((3 : ℚ)/5 ≤ p.tradesvolumeofmosttradedsector.getD 0 / p.totaltradesvolumein24.getD 0 →
          check_sector_concentration p (3/5) = some
            { type := "sector_concentration"
              priority := 9/10
              message := s ++ " accounts for " ++
                formatPct0 (p.tradesvolumeofmosttradedsector.getD 0 / p.totaltradesvolumein24.getD 0) ++
                " of your 2024 trading volume — consider diversifying."
              evidence :=
                { sector_mentioned := some s
                  sector_share := some (pyRound4
                    (p.tradesvolumeofmosttradedsector.getD 0 / p.totaltradesvolumein24.getD 0)) }
              stale := false }) ∧
         (p.tradesvolumeofmosttradedsector.getD 0 / p.totaltradesvolumein24.getD 0 < (3 : ℚ)/5 →
          check_sector_concentration p (3/5) = none)))) ∧
    check_sector_concentration pBanking (3/5) = some concRec ∧
    concRec.message =
      "Banking" ++ " accounts for " ++ "70%" ++
        " of your 2024 trading volume — consider diversifying." := by
  refine ⟨?_, ?_, ?_⟩
  · intro p
    constructor
    · intro hcase
      rcases hp : p.mosttradedsector with _ | s
      · simp [check_sector_concentration, hp]
      · simp only [check_sector_concentration, hp]
        rcases hcase with hu | hv
        · rw [hp] at hu
          simp only [is_unknown] at hu
          rw [if_pos hu]
        · by_cases hu : is_unknown_str s = true
          · rw [if_pos hu]
          · rw [if_neg hu, if_pos hv]
    · intro s hp hun htot
      have hu : ¬ (is_unknown_str s = true) := by simp [hun]
      have hv : ¬ (p.totaltradesvolumein24.getD 0 ≤ 0) := not_le.mpr htot
      constructor
      · intro hshare
        simp only [check_sector_concentration, hp]
        rw [if_neg hu, if_neg hv, if_pos hshare]
      · intro hshare
        simp only [check_sector_concentration, hp]
        rw [if_neg hu, if_neg hv, if_neg (not_le.mpr hshare)]
  · with_unfolding_all rfl
  · with_unfolding_all rfl

set_option maxRecDepth 8000 in
theorem C7_sector_concentration_witness :
    check_sector_concentration pBanking (3/5) = some concRec := by
  have h := ((C7_sector_concentration.1 pBanking).2 ("Banking") rfl
    (by with_unfolding_all decide) (by with_unfolding_all decide)).1
    (by with_unfolding_all decide)
  rw [h]
  with_unfolding_all rfl

/-- The empty portfolio: every `dict.get` returns `None`. -/
def pEmptyP : Portfolio := {}

/-- A nonempty market table that has a `name` column but neither a
`change_pct` nor a `sector` column. -/
def mNameOnly : Market :=
  { hasName := true, hasChangePct := false, hasSector := false
    rows := [{ name := some ("ABC") }] }

/-- C1: contrary to the never-fail philosophy, when the optional
`change_pct` column is absent and at least one candidate row remains,
`_suggest_diversification` reaches `candidates.sort_values("change_pct", ...)`
and raises a pandas `KeyError`, which propagates out of
`generate_recommendations` instead of producing an output envelope. -/
theorem C1_missing_optional_columns_crash :
    mNameOnly.hasName = true ∧
    suggest_diversification pEmptyP mNameOnly = .error () ∧
    generate_recommendations pEmptyP mNameOnly none ("degrade") 120 none 0 = .error () := by
  refine ⟨rfl, ?_, ?_⟩
  · with_unfolding_all rfl
  · with_unfolding_all rfl

/-- Portfolio whose raw sector labels are present but whose pre-normalized
`_std` fields are absent. -/
def pRawSector : Portfolio :=
  { mosttradedsector := some ("Banking"), mostprofitablesector := some ("Banking") }

/-- Market with one Financials-sector row carrying a parseable change. -/
def mFinRow : Market :=
  { rows := [{ name := some ("FinCo"), change_pct := some (1/20), sector := some ("investment") }] }

/-- C2 counterexample: with `mostprofitablesector="Banking"` present but
`mostprofitablesector_std` absent, the raw label normalizes to
`Financials` and a matching market row with a parseable change exists, yet
`_suggest_within_profitable_sector` and `_suggest_within_primary_sector`
both treat the sector as unknown and return null instead of normalizing
the raw label themselves. -/
theorem C2_profitable_no_self_normalization :
    pRawSector.mostprofitablesector = some ("Banking") ∧
    pRawSector.mostprofitablesector_std = none ∧
    pRawSector.mosttradedsector_std = none ∧
    std_sector_11_str ("Banking") = "Financials" ∧
    mFinRow.rows.filter (fun r => rowSectorStd r == "Financials" && r.change_pct.isSome) ≠ [] ∧
    suggest_within_profitable_sector pRawSector mFinRow = .ok none ∧
    suggest_within_primary_sector pRawSector mFinRow = none := by
  refine ⟨rfl, rfl, rfl, ?_, ?_, ?_, ?_⟩
  · with_unfolding_all rfl
  · with_unfolding_all decide
  · with_unfolding_all rfl
  · with_unfolding_all rfl

/-- C2 amended: when the `_std` fields are absent, only the
Diversification path (via `_get_user_sector_labels`) normalizes the raw
label itself; WithinProfitableSector and WithinPrimarySector rely solely on
the pre-normalized fields and return null. -/
theorem C2_amended_only_diversification_normalizes :
    ∀ (p : Portfolio) (m : Market) (s : String),
      p.mosttradedsector_std = none → p.mostprofitablesector_std = none →
      p.mosttradedsector = some s → is_unknown_str s = false →
      get_user_sector_labels p = (s, std_sector_11_str s) ∧
      suggest_within_profitable_sector p m = .ok none ∧
      suggest_within_primary_sector p m = none := by
  intro p m s h1 h2 h3 h4
  have hs : s ≠ "" := by
    intro hEq
    rw [hEq] at h4
    have : is_unknown_str ("") = true := by with_unfolding_all decide
    rw [this] at h4
    cases h4
  refine ⟨?_, ?_, ?_⟩
  · simp only [get_user_sector_labels, h1, h2, h3, pyOrS]
    rw [if_neg hs]
  · simp only [suggest_within_profitable_sector, h2]
  · simp only [suggest_within_primary_sector, h1, h2, pyOrS]
    rw [if_pos (by with_unfolding_all decide)]

theorem C2_amended_witness :
    get_user_sector_labels pRawSector = ("Banking", "Financials") ∧
    suggest_within_profitable_sector pRawSector mFinRow = .ok none := by
  have h := C2_amended_only_diversification_normalizes pRawSector mFinRow ("Banking")
    rfl rfl rfl (by with_unfolding_all decide)
  refine ⟨h.1.trans ?_, h.2.1⟩
  with_unfolding_all rfl

/-- The degraded concentration item (priority scaled by 0.7, stale). -/
def concRecDeg : Recommendation :=
  { concRec with priority := concRec.priority * (7/10), stale := true }

/-- Output envelope of the `pBanking`/empty-market run evaluated at the
`asof` instant itself (not stale). -/
def outBankingFresh : EngineOutput :=
  { client_id := none
    risk_persona := "Aggressive"
    persona_confidence := 3/4
    meta_freshness_policy := "degrade"
    meta_stale_after_minutes := 120
    meta_data_timestamp := 0
    meta_max_items := none
    recommendations := [concRec] }

/-- Output of the identical run evaluated 200 minutes later (stale). -/
def outBankingStale : EngineOutput :=
  { outBankingFresh with recommendations := [concRecDeg] }

/-- C9 counterexample: with portfolio, market, configuration and
`market_asof` all fixed, two invocations at different wall-clock instants
(0 and 200 minutes past `asof`, window 120, policy `degrade`) produce
different outputs — staleness is computed against `datetime.utcnow()`, so
the output is not a function of the fixed inputs alone. -/
theorem C9_wall_clock_dependence :
    generate_recommendations pBanking mEmptyMkt none ("degrade") 120 (some 0) 0 =
      .ok outBankingFresh ∧
    generate_recommendations pBanking mEmptyMkt none ("degrade") 120 (some 0) 200 =
      .ok outBankingStale ∧
    outBankingFresh ≠ outBankingStale := by
  refine ⟨?_, ?_, ?_⟩
  · with_unfolding_all rfl
  · with_unfolding_all rfl
  · with_unfolding_all decide

/-- C9 amended: the output depends on the wall clock only through the
staleness verdict — two invocations with fixed inputs and fixed
`market_asof` whose instants yield the same verdict (in particular, the
same instant) produce identical output. -/
theorem C9_amended_determinism :
    ∀ (p : Portfolio) (m : Market) (mi : Option ℤ) (pol : String) (sam : ℤ)
      (t now1 now2 : ℚ),
      isStaleB sam t now1 = isStaleB sam t now2 →
      generate_recommendations p m mi pol sam (some t) now1 =
        generate_recommendations p m mi pol sam (some t) now2 := by
  intro p m mi pol sam t now1 now2 h
  simp only [generate_recommendations, Option.getD_some]
  rw [h]

theorem C9_amended_determinism_witness :
    generate_recommendations pBanking mEmptyMkt none ("degrade") 120 (some 0) 5 =
      generate_recommendations pBanking mEmptyMkt none ("degrade") 120 (some 0) 10 :=
  C9_amended_determinism pBanking mEmptyMkt none ("degrade") 120 0 5 10
    (by with_unfolding_all rfl)

/-- C4: when the data are stale, `degrade` sets every output item stale and
scales its generator-assigned priority by 0.7; `warn` sets stale with
priority unchanged; `off` (or fresh data) leaves every item exactly as the
generators produced it. -/
theorem C4_freshness_policy :
    ∀ (p : Portfolio) (m : Market) (mi : Option ℤ) (pol : String) (sam : ℤ)
      (asof : Option ℚ) (now : ℚ) (raw : List Recommendation) (out : EngineOutput),
      rawRecs p m = .ok raw →
      generate_recommendations p m mi pol sam asof now = .ok out →
      ((isStaleB sam (asof.getD now) now = true ∧ pol = "degrade") →
        ∀ r ∈ out.recommendations, r.stale = true ∧
          ∃ r0 ∈ raw, r.priority = r0.priority * (7/10) ∧
            r = { r0 with priority := r0.priority * (7/10), stale := true }) ∧
      ((isStaleB sam (asof.getD now) now = true ∧ pol = "warn") →
        ∀ r ∈ out.recommendations, r.stale = true ∧
          ∃ r0 ∈ raw, r.priority = r0.priority ∧ r = { r0 with stale := true }) ∧
      ((pol = "off" ∨ isStaleB sam (asof.getD now) now = false) →
        ∀ r ∈ out.recommendations, r ∈ raw) := by
  intro p m mi pol sam asof now raw out hraw hout
  obtain ⟨w, hw, hform⟩ := generate_ok_iff.mp hout
  obtain ⟨raw2, hraw2, hwf⟩ := workingList_ok_iff.mp hw
  rw [hraw] at hraw2
  have hr2 : raw2 = raw := (Except.ok.inj hraw2).symm
  rw [hr2] at hwf
  subst hform
  have hmem : ∀ r, r ∈ truncateItems mi (dedupRecs w) →
      r ∈ (if isStaleB sam (asof.getD now) now = true then
        raw.map (freshnessTransform pol) else raw) := by
    intro r hr
    have h2 := dedupGo_subset _ _ _ (mem_truncateItems _ _ _ hr)
    rw [hwf] at h2
    exact (sortRecs_mem _ _).mp h2
  refine ⟨?_, ?_, ?_⟩
  · rintro ⟨hst, hpol⟩ r hr
    subst hpol
    have h1 := hmem r hr
    rw [hst] at h1
    simp only [if_true] at h1
    obtain ⟨r0, hr0, heq⟩ := List.mem_map.mp h1
    have hft : freshnessTransform ("degrade") r0 =
        { r0 with priority := r0.priority * (7/10), stale := true } := by
      with_unfolding_all rfl
    rw [hft] at heq
    refine ⟨?_, r0, hr0, ?_, heq.symm⟩
    · rw [← heq]
    · rw [← heq]
  · rintro ⟨hst, hpol⟩ r hr
    subst hpol
    have h1 := hmem r hr
    rw [hst] at h1
    simp only [if_true] at h1
    obtain ⟨r0, hr0, heq⟩ := List.mem_map.mp h1
    have hft : freshnessTransform ("warn") r0 = { r0 with stale := true } := by
      with_unfolding_all rfl
    rw [hft] at heq
    refine ⟨?_, r0, hr0, ?_, heq.symm⟩
    · rw [← heq]
    · rw [← heq]
  · rintro (hpol | hst) r hr
    · subst hpol
      have h1 := hmem r hr
      by_cases hstale : isStaleB sam (asof.getD now) now = true
      · rw [hstale] at h1
        simp only [if_true] at h1
        obtain ⟨r0, hr0, heq⟩ := List.mem_map.mp h1
        have hft : freshnessTransform ("off") r0 = r0 := by
          with_unfolding_all rfl
        rw [hft] at heq
        rw [← heq]
        exact hr0
      · rw [if_neg hstale] at h1
        exact h1
    · have h1 := hmem r hr
      rw [hst] at h1
      simp only [Bool.false_eq_true, if_false] at h1
      exact h1

theorem C4_freshness_policy_witness :
    concRecDeg.stale = true ∧ concRecDeg.priority = concRec.priority * (7/10) := by
  have h := (C4_freshness_policy pBanking mEmptyMkt none ("degrade") 120 (some 0) 200
    [concRec] outBankingStale (by with_unfolding_all rfl) (by with_unfolding_all rfl)).1
    ⟨by with_unfolding_all rfl, rfl⟩ concRecDeg (List.mem_cons_self _ _)
  obtain ⟨hstale, r0, hr0, hpri, hEq⟩ := h
  have hr0c : r0 = concRec := List.mem_singleton.mp hr0
  subst hr0c
  exact ⟨hstale, hpri⟩

/-- C5: in the final output no two items share a non-empty dedup key; the
dedup walk never drops empty-key items; for any non-empty key the first
occurrence in the sorted working list is kept; and the working list is
priority-sorted (so that first occurrence is the highest-priority one). -/
theorem C5_dedup_invariants :
    ∀ (p : Portfolio) (m : Market) (mi : Option ℤ) (pol : String) (sam : ℤ)
      (asof : Option ℚ) (now : ℚ) (w : List Recommendation) (out : EngineOutput),
      workingList p m pol (isStaleB sam (asof.getD now) now) = .ok w →
      generate_recommendations p m mi pol sam asof now = .ok out →
      out.recommendations = truncateItems mi (dedupRecs w) ∧
      out.recommendations.Pairwise (fun a b => recKey a ≠ "" → recKey a ≠ recKey b) ∧
      (dedupRecs w).filter (fun r => recKey r == "") = w.filter (fun r => recKey r == "") ∧
      (∀ (k : String) (y : Recommendation), k ≠ "" →
        w.find? (fun r => recKey r == k) = some y → y ∈ dedupRecs w) ∧
      w.Pairwise (fun a b => b.priority ≤ a.priority) := by
  intro p m mi pol sam asof now w out hw hout
  obtain ⟨w2, hw2, hform⟩ := generate_ok_iff.mp hout
  rw [hw] at hw2
  have hww : w2 = w := (Except.ok.inj hw2).symm
  rw [hww] at hform
  subst hform
  refine ⟨rfl, ?_, ?_, ?_, ?_⟩
  · exact (dedupGo_pairwise w []).sublist (truncateItems_sublist mi (dedupRecs w))
  · exact dedupGo_filter_empty w []
  · intro k y hk hf
    exact dedupGo_find_mem w [] k y hk (by simp) hf
  · obtain ⟨raw, hraw, hwf⟩ := workingList_ok_iff.mp hw
    rw [hwf]
    exact sortRecs_sorted _

/-- Market with a single strongly-positive mover named `XYZ`, referenced by
both the Diversification and the MoversSplit generators. -/
def mXYZ : Market :=
  { hasName := true, hasChangePct := true, hasSector := false
    rows := [{ name := some ("XYZ"), change_pct := some (1/20) }] }

/-- The diversification item (priority 0.75) citing `XYZ`. -/
def divRecXYZ : Recommendation :=
  { type := "diversification"
    priority := 3/4
    message := "Consider diversifying. Example: XYZ (+5.00% today)."
    evidence :=
      { alt_stock := some ("XYZ")
        alt_sector_std := some ("Unknown")
        user_sector_mentioned := some ("")
        user_sector_std := some ("Unknown")
        change_pct := some (1/20) }
    stale := false }

/-- The top-mover item (priority 0.65) citing the same `XYZ`. -/
def upRecXYZ : Recommendation :=
  { type := "top_mover_up"
    priority := 13/20
    message := "XYZ up 5.00% today."
    evidence := { stock := some ("XYZ"), change_pct := some (1/20) }
    stale := false }

/-- The sorted working list of the `pEmptyP`/`mXYZ` run. -/
def wXYZ : List Recommendation := [divRecXYZ, upRecXYZ]

/-- The final output of that run: the lower-priority duplicate is dropped. -/
def outXYZ : EngineOutput :=
  { client_id := none
    risk_persona := "Aggressive"
    persona_confidence := 3/4
    meta_freshness_policy := "off"
    meta_stale_after_minutes := 120
    meta_data_timestamp := 0
    meta_max_items := none
    recommendations := [divRecXYZ] }

set_option maxRecDepth 8000 in
theorem C5_dedup_invariants_witness :
    divRecXYZ ∈ dedupRecs wXYZ := by
  have h := (C5_dedup_invariants pEmptyP mXYZ none ("off") 120 (some 0) 0 wXYZ outXYZ
    (by with_unfolding_all rfl) (by with_unfolding_all rfl)).2.2.2.1
  exact h ("xyz") divRecXYZ (by decide) (by with_unfolding_all rfl)

/-- Portfolio with a known pre-normalized most-profitable sector. -/
def pProfFin : Portfolio := { mostprofitablesector_std := some ("Financials") }

/-- Nonempty market with a `name` and `change_pct` column but no `sector`
column. -/
def mNoSector : Market :=
  { hasName := true, hasChangePct := true, hasSector := false
    rows := [{ name := some ("ABC"), change_pct := some (1/20) }] }

/-- A Financials row whose day change is negative. -/
def rowDown : MarketRow :=
  { name := some ("Down Co"), change_pct := some (-(1/20)), sector := some ("banking") }

/-- Market containing only the negative Financials mover. -/
def mFinNeg : Market := { rows := [rowDown] }

/-- C8 counterexample: for a market table without a `sector` column the
claimed selection behaviour does not hold — `_suggest_within_profitable_sector`
indexes the frame with a scalar boolean (`m.get("sector_std") == prof_std`)
and raises a `KeyError` instead of selecting among (zero) matching rows. -/
theorem C8_counterexample_missing_sector_column :
    pProfFin.mostprofitablesector_std = some ("Financials") ∧
    mNoSector.hasSector = false ∧
    suggest_within_profitable_sector pProfFin mNoSector = .error () := by
  refine ⟨rfl, rfl, ?_⟩
  with_unfolding_all rfl

/-- C8 amended: on nonempty markets having `name` and `sector` columns,
WithinProfitableSector picks the row with the maximum parseable
`change_pct` among rows whose normalized sector equals the known
`mostprofitablesector_std`, with no positivity filter (a negative top row
is still surfaced) — unlike WithinPrimarySector, which only ever returns
rows with `change_pct > 0`. -/
theorem C8_amended_profitable_top_mover_no_positivity_filter :
    (∀ (p : Portfolio) (m : Market) (s : String),
      p.mostprofitablesector_std = some s → is_unknown_str s = false →
      m.rows ≠ [] → m.hasSector = true → m.hasName = true → m.hasChangePct = true →
      (((m.rows.filter (fun r => rowSectorStd r == s)).filter
          (fun r => r.change_pct.isSome) = [] →
        suggest_within_profitable_sector p m = .ok none) ∧
       (∀ hd tl,
        sortBy leChangeDesc ((m.rows.filter (fun r => rowSectorStd r == s)).filter
          (fun r => r.change_pct.isSome)) = hd :: tl →
        (suggest_within_profitable_sector p m = .ok (some
          { type := "within_profitable_sector"
            priority := 7/10
            message := "In your profitable sector (" ++ s ++ "), " ++
              dispName hd.name ++ " is up " ++ safe_percent hd.change_pct ++ " today."
            evidence :=
              { stock := hd.name
                sector_std := some s
                change_pct := some (hd.change_pct.getD 0) }
            stale := false }) ∧
         ∀ r ∈ (m.rows.filter (fun r => rowSectorStd r == s)).filter
             (fun r => r.change_pct.isSome),
           r.change_pct.getD 0 ≤ hd.change_pct.getD 0)))) ∧
    (∀ (p : Portfolio) (m : Market) (rec : Recommendation),
      suggest_within_primary_sector p m = some rec →
      ∃ c, rec.evidence.change_pct = some c ∧ 0 < c) := by
  constructor
  · intro p m s hstd hun hrows hsec hname hchg
    have hne : m.rows.isEmpty = false := by
      cases hm : m.rows with
      | nil => exact absurd hm hrows
      | cons a l => rfl
    have hens : ensuredHasSectorStd m = true := by
      simp [ensuredHasSectorStd, hsec, hne]
    simp only [suggest_within_profitable_sector, hstd]
    rw [if_neg (by simp [hun]), if_neg (by simp [hens])]
    rw [hchg]
    constructor
    · intro hempty
      cases hdf : (m.rows.filter (fun r => rowSectorStd r == s)).isEmpty
      · simp [hempty, sortBy]
      · simp
    · intro hd tl hsort
      have hdf : (m.rows.filter (fun r => rowSectorStd r == s)).isEmpty = false := by
        cases hm : m.rows.filter (fun r => rowSectorStd r == s) with
        | nil =>
          rw [hm] at hsort
          simp [sortBy] at hsort
        | cons a l => rfl
      simp only [Bool.not_true, Bool.false_or, Bool.or_false]
      rw [if_neg (by simp [hdf]), hsort]
      dsimp only
      constructor
      · rw [hname]
        rw [if_neg (by simp)]
      · intro r hr
        have hmem : r ∈ sortBy leChangeDesc
            ((m.rows.filter (fun x => rowSectorStd x == s)).filter
              (fun x => x.change_pct.isSome)) := (mem_sortBy _ _ _).mpr hr
        rw [hsort] at hmem
        rcases List.mem_cons.mp hmem with rfl | hm
        · exact le_refl _
        · have hp := pairwise_sortBy leChangeDesc leChangeDesc_total leChangeDesc_trans
            ((m.rows.filter (fun x => rowSectorStd x == s)).filter
              (fun x => x.change_pct.isSome))
          rw [hsort, List.pairwise_cons] at hp
          have h2 := hp.1 r hm
          simpa [leChangeDesc, decide_eq_true_eq] using h2
  · intro p m rec h
    simp only [suggest_within_primary_sector] at h
    split at h
    · cases h
    · split at h
      · cases h
      · split at h
        · cases h
        · split at h
          · cases h
          · rename_i r0 rest heq
            have hmem : r0 ∈ sortBy leChangeDesc
                (((m.rows.filter (fun r => rowSectorStd r ==
                    pyOrS p.mosttradedsector_std (pyOrS p.mostprofitablesector_std ("Unknown")))).filter
                  (fun r => r.change_pct.isSome && r.name.isSome)).filter
                  (fun r => r.change_pct.getD 0 > 0)) := by
              rw [heq]
              exact List.mem_cons_self _ _
            have h3 := (mem_sortBy _ _ _).mp hmem
            have h4 := (List.mem_filter.mp h3).2
            have h5 : (0 : ℚ) < r0.change_pct.getD 0 := by
              simpa [decide_eq_true_eq] using h4
            have hrec : rec = _ := (Option.some.inj h).symm
            subst hrec
            exact ⟨r0.change_pct.getD 0, rfl, h5⟩

set_option maxRecDepth 8000 in
theorem C8_amended_witness_negative_top_row_surfaced :
    suggest_within_profitable_sector pProfFin mFinNeg = .ok (some
      { type := "within_profitable_sector"
        priority := 7/10
        message := "In your profitable sector (Financials), Down Co is up -5.00% today."
        evidence :=
          { stock := some ("Down Co")
            sector_std := some ("Financials")
            change_pct := some (-(1/20)) }
        stale := false }) := by
  have h := ((C8_amended_profitable_top_mover_no_positivity_filter.1 pProfFin mFinNeg
    ("Financials") rfl (by with_unfolding_all decide) (by with_unfolding_all decide)
    rfl rfl rfl).2 rowDown [] (by with_unfolding_all rfl)).1
  rw [h]
  with_unfolding_all rfl

theorem mem_limitList {α : Type} (lim : Option ℤ) (l : List α) (a : α)
    (h : a ∈ (match lim with | some k => l.take k.toNat | none => l)) : a ∈ l := by
  cases lim with
  | none => exact h
  | some k => exact List.take_subset _ _ h

theorem movers_row_prop (m : Market) (names : List (Option String)) (row : MarketRow)
    (hrow : row ∈ (if names ≠ [] then
        (m.rows.filter (fun r => r.change_pct.isSome && r.name.isSome)).filter
          (fun r => !((moversExcludeSet names).contains ((dispName r.name).trim.toLower)))
      else m.rows.filter (fun r => r.change_pct.isSome && r.name.isSome))) :
    ∃ s, row.name = some s ∧
      ((moversExcludeSet names).contains (s.trim.toLower)) = false := by
  split at hrow
  · have h1 := List.mem_filter.mp hrow
    have h3 := (List.mem_filter.mp h1.1).2
    have hn : row.name.isSome = true := by
      simp only [Bool.and_eq_true] at h3
      exact h3.2
    obtain ⟨s, hs⟩ := Option.isSome_iff_exists.mp hn
    refine ⟨s, hs, ?_⟩
    have h2 := h1.2
    rw [hs] at h2
    simpa [dispName] using h2
  · have h3 := (List.mem_filter.mp hrow).2
    have hn : row.name.isSome = true := by
      simp only [Bool.and_eq_true] at h3
      exact h3.2
    obtain ⟨s, hs⟩ := Option.isSome_iff_exists.mp hn
    rename_i hne
    have hnames : names = [] := by
      by_contra hc
      exact hne hc
    subst hnames
    exact ⟨s, hs, rfl⟩

/-- Portfolio naming `Alpha` as the client's own most-traded security. -/
def pOwn : Portfolio := { mosttradedsecurity := some ("Alpha") }

/-- Market whose single positive mover is the client's own `Alpha`. -/
def mOwn : Market :=
  { hasName := true, hasChangePct := true, hasSector := false
    rows := [{ name := some ("Alpha"), change_pct := some (1/20) }] }

/-- The diversification item recommending the client's own security. -/
def divRecAlpha : Recommendation :=
  { type := "diversification"
    priority := 3/4
    message := "Consider diversifying. Example: Alpha (+5.00% today)."
    evidence :=
      { alt_stock := some ("Alpha")
        alt_sector_std := some ("Unknown")
        user_sector_mentioned := some ("")
        user_sector_std := some ("Unknown")
        change_pct := some (1/20) }
    stale := false }

/-- Output of the `pOwn`/`mOwn` run: the movers are empty (Alpha excluded)
but Diversification still recommends the client's own `Alpha`. -/
def outOwn : EngineOutput :=
  { client_id := none
    risk_persona := "Aggressive"
    persona_confidence := 3/4
    meta_freshness_policy := "off"
    meta_stale_after_minutes := 120
    meta_data_timestamp := 0
    meta_max_items := none
    recommendations := [divRecAlpha] }

/-- C10: the case/space-insensitive exclusion of the client's named
securities applies only to the MoversSplit scans; Diversification,
WithinProfitableSector and WithinPrimarySector ignore those portfolio
fields entirely and may recommend the client's own security (as the
concrete `pOwn`/`mOwn` run shows). -/
theorem C10_exclusion_only_in_movers :
    (∀ (m : Market) (names : List (Option String)) (uthr dthr : ℚ) (ul dl : Option ℤ),
      ∀ r ∈ highlight_movers_split m uthr dthr names ul dl,
        ∃ s, r.evidence.stock = some s ∧
          ((moversExcludeSet names).contains (s.trim.toLower)) = false) ∧
    (∀ (p : Portfolio) (m : Market) (x y : Option String),
      suggest_diversification
        { p with mosttradedsecurity := x, mostprofitablesecurityname := y } m =
        suggest_diversification p m ∧
      suggest_within_profitable_sector
        { p with mosttradedsecurity := x, mostprofitablesecurityname := y } m =
        suggest_within_profitable_sector p m ∧
      suggest_within_primary_sector
        { p with mosttradedsecurity := x, mostprofitablesecurityname := y } m =
        suggest_within_primary_sector p m) ∧
    (pOwn.mosttradedsecurity = some ("Alpha") ∧
      generate_recommendations pOwn mOwn none ("off") 120 (some 0) 0 = .ok outOwn ∧
      outOwn.recommendations.map (fun r => r.evidence.alt_stock) = [some ("Alpha")]) := by
  refine ⟨?_, ?_, ?_, ?_, ?_⟩
  · intro m names uthr dthr ul dl r hr
    simp only [highlight_movers_split] at hr
    split at hr
    · simp at hr
    · rcases List.mem_append.mp hr with h | h
      · obtain ⟨row, hrow, rfl⟩ := List.mem_map.mp h
        have hrow2 := mem_limitList _ _ _ hrow
        have hrow3 := (List.mem_filter.mp ((mem_sortBy _ _ _).mp hrow2)).1
        obtain ⟨s, hs, hc⟩ := movers_row_prop m names row hrow3
        exact ⟨s, hs, hc⟩
      · obtain ⟨row, hrow, rfl⟩ := List.mem_map.mp h
        have hrow2 := mem_limitList _ _ _ hrow
        have hrow3 := (List.mem_filter.mp ((mem_sortBy _ _ _).mp hrow2)).1
        obtain ⟨s, hs, hc⟩ := movers_row_prop m names row hrow3
        exact ⟨s, hs, hc⟩
  · intro p m x y
    cases p
    exact ⟨rfl, rfl, rfl⟩
  · rfl
  · with_unfolding_all rfl
  · with_unfolding_all rfl

set_option maxRecDepth 8000 in
theorem C10_exclusion_only_in_movers_witness :
    upRecXYZ.evidence.stock = some ("XYZ") ∧
    ((moversExcludeSet [none, none]).contains (("XYZ").trim.toLower)) = false := by
  obtain ⟨s, hs, hc⟩ := C10_exclusion_only_in_movers.1 mXYZ [none, none] (1/50) (3/100)
    (some 5) (some 5) upRecXYZ (by with_unfolding_all decide)
  have hx : s = "XYZ" := by
    have h2 : some s = some ("XYZ") := by
      rw [← hs]
      with_unfolding_all rfl
    exact Option.some.inj h2
  subst hx
  exact ⟨by with_unfolding_all rfl, hc⟩
